import Mathlib

/-!
Shallow embedding of `code/scripts/training.py` (BakedAvatar training driver):
the training-loop controller, the running-average loss windows, the validation
aggregation, the optimizable-input substitution, and the checkpoint
resume/save logic, together with theorems settling the specification claims.
-/

namespace BakedAvatar

/- ----------------------------------------------------------------------
Metric aggregator: running-average windows (`training.py` lines 304-311).
`avg_loss_dict[key] = deque(maxlen=avg_loss_it)`, `.append(value)`,
reported value `np.mean(window)`.
---------------------------------------------------------------------- -/

/-- One `deque(maxlen=C).append(v)` step: append on the right, evict from the
left whatever exceeds the capacity `C`. -/
def push_window (C : Nat) (w : List ℚ) (v : ℚ) : List ℚ :=
  let w' := w ++ [v]
  if C < w'.length then w'.drop (w'.length - C) else w'

/-- Push a whole sequence of scalar loss values into an initially empty
window, as the training loop does one iteration at a time. -/
def push_all (C : Nat) (vs : List ℚ) : List ℚ :=
  vs.foldl (push_window C) []

/-- `np.mean` of the window contents: sum divided by length. -/
def window_mean (w : List ℚ) : ℚ :=
  w.sum / (w.length : ℚ)

/- ----------------------------------------------------------------------
Validation aggregation (`training.py` lines 372-394).
Each worker folds `add_dict_to` over its validation batches (a running sum
per term) and counts batches; after `accel.gather`, the main process divides
the cross-worker sum of each term by the cross-worker sum of batch counts.
---------------------------------------------------------------------- -/

/-- `add_dict_to(val_loss_dict, loss_dict)` restricted to one term: a running
sum over the worker's validation batches, starting from zero. -/
def worker_term_sum (batches : List ℚ) : ℚ :=
  batches.foldl (· + ·) 0

/-- `val_num_batches` for one worker: one count per consumed batch. -/
def worker_num_batches (batches : List ℚ) : Nat :=
  batches.length

/-- The main-process aggregation after `accel.gather`:
`torch.sum(stacked term) / torch.sum(stacked num_batches)`. -/
def aggregate_val_loss (workers : List (List ℚ)) : ℚ :=
  ((workers.map worker_term_sum).sum) / (((workers.map worker_num_batches).sum : Nat) : ℚ)

/-- The mean a single process would compute over one concatenated batch list. -/
def single_process_mean (batches : List ℚ) : ℚ :=
  batches.sum / (batches.length : ℚ)

/- ----------------------------------------------------------------------
Training loop counter dynamics (`training.py` lines 281, 413-416).
The loader is infinite; each consumed batch runs a whole iteration body and
ends with `it += 1; sample_count += batch_size * num_processes;
if it > iterations: break`.
---------------------------------------------------------------------- -/

/-- One pass of the `for inputs, targets in train_loader` loop starting at
counter `it` with sample counter `sc`: returns the final `it`, the final
`sample_count`, and the number of whole iterations (consumed batches) run.
The increment-then-test order is exactly that of the source. -/
def run_training_loop (iterations batch_size world_size : Nat) (it sc : Nat) :
    Nat × Nat × Nat :=
  let it' := it + 1
  let sc' := sc + batch_size * world_size
  if it' > iterations then (it', sc', 1)
  else
    let r := run_training_loop iterations batch_size world_size it' sc'
    (r.1, r.2.1, r.2.2 + 1)
termination_by iterations + 1 - it
decreasing_by omega

/- ----------------------------------------------------------------------
Periodic action gates (`training.py` lines 314, 316, 342, 366).
---------------------------------------------------------------------- -/

/-- `it % log_it == 0 and accel.is_local_main_process` (line 314). -/
def fires_log (it log_it : Nat) (is_local_main : Bool) : Bool :=
  it % log_it == 0 && is_local_main

/-- `it % show_it == 0 and accel.is_local_main_process` (line 316). -/
def fires_show (it show_it : Nat) (is_local_main : Bool) : Bool :=
  it % show_it == 0 && is_local_main

/-- `it % save_it == 0 and accel.is_local_main_process` (line 342). -/
def fires_save (it save_it : Nat) (is_local_main : Bool) : Bool :=
  it % save_it == 0 && is_local_main

/-- `it % eval_it == 0 and len(val_dataset) > 0` (line 366). -/
def fires_eval (it eval_it val_size : Nat) : Bool :=
  it % eval_it == 0 && decide (0 < val_size)

/-- `ckpt_dir = os.path.join(checkpoints_dir, f'iter_{it}')` (line 343),
relative to the checkpoints root. -/
def ckpt_dir_name (it : Nat) : String :=
  "iter_" ++ toString it

/- ----------------------------------------------------------------------
Optimizable-input substitution (`training.py` lines 230-243,
`replace_optimizable_inputs`).  Python dictionaries hold *references* to
tensors, so `targets['extrinsic'] = inputs['extrinsic']` aliases, while
`inputs['expression'] = input_params['expression'](ids)` rebinds the key to
a fresh tensor.  The in-place slice write
`inputs['extrinsic'][:, :3, 3] = ...` mutates the shared tensor.  We model
tensors in a heap of cells addressed by natural numbers.
---------------------------------------------------------------------- -/

/-- A batch-row 4x4 extrinsic matrix with integer entries. -/
abbrev Mat4 := Fin 4 → Fin 4 → Int

/-- A generic feature vector (frame latent / expression / pose row). -/
abbrev Vec := List Int

/-- A tensor value held in the Python heap. -/
inductive Val where
  | ids (xs : List Nat)
  | vecs (xs : List Vec)
  | mats (xs : List Mat4)
deriving DecidableEq

/-- The Python heap: a list of cells, addressed by index; `alloc` appends. -/
structure Heap where
  cells : List Val
deriving DecidableEq

def Heap.read (h : Heap) (a : Nat) : Option Val :=
  h.cells[a]?

def Heap.write (h : Heap) (a : Nat) (v : Val) : Heap :=
  ⟨h.cells.set a v⟩

def Heap.alloc (h : Heap) (v : Val) : Heap × Nat :=
  (⟨h.cells ++ [v]⟩, h.cells.length)

/-- Read an address expecting a batch of frame ids. -/
def Heap.readIds (h : Heap) (a : Nat) : Option (List Nat) :=
  match h.read a with
  | some (.ids xs) => some xs
  | _ => none

/-- Read an address expecting a batch of vectors. -/
def Heap.readVecs (h : Heap) (a : Nat) : Option (List Vec) :=
  match h.read a with
  | some (.vecs xs) => some xs
  | _ => none

/-- Read an address expecting a batch of 4x4 matrices. -/
def Heap.readMats (h : Heap) (a : Nat) : Option (List Mat4) :=
  match h.read a with
  | some (.mats xs) => some xs
  | _ => none

/-- The keys of the `inputs` / `targets` dictionaries that
`replace_optimizable_inputs` touches, each bound to a heap address (or
absent). -/
structure Dict where
  id : Option Nat
  frame_latent : Option Nat
  expression : Option Nat
  pose : Option Nat
  extrinsic : Option Nat
deriving DecidableEq

/-- The four `optimize_*` configuration flags. -/
structure Flags where
  optimize_latent : Bool
  optimize_expression : Bool
  optimize_pose : Bool
  optimize_camera : Bool
deriving DecidableEq

/-- The optimizable input store `input_params`: embedding tables indexed by
frame id.  `cam_trans` rows are 3-vectors, matching
`nn.Embedding(num_training_frames, 3)`. -/
structure InputParams where
  frame_latent : Nat → Vec
  expression : Nat → Vec
  pose : Nat → Vec
  cam_trans : Nat → Fin 3 → Int

/-- The mutable Python state `replace_optimizable_inputs` works on: the
tensor heap and the two dictionaries. -/
structure PyState where
  heap : Heap
  inputs : Dict
  targets : Dict
deriving DecidableEq

/-- `ids = torch.full_like(inputs['id'], fixed_id) if fixed_id else
inputs['id']` (line 232).  Python truthiness: `fixed_id` of `None` *or* `0`
selects the batch's own ids. -/
def computeIds (batch_ids : List Nat) (fixed_id : Option Nat) : List Nat :=
  match fixed_id with
  | some f => if f ≠ 0 then List.replicate batch_ids.length f else batch_ids
  | none => batch_ids

/-- `inputs['extrinsic'][:, :3, 3] = t` on one matrix row: entries `(i, 3)`
with `i < 3` become `t i`; all other entries are untouched. -/
def setTransRow (m : Mat4) (t : Fin 3 → Int) : Mat4 :=
  fun i j => if h : (i : Nat) < 3 ∧ (j : Nat) = 3 then t ⟨i, h.1⟩ else m i j

/-- The whole batched in-place slice write: row `b` of the extrinsic batch
receives `cam_trans(ids[b])` in its translation column. -/
def setTrans (ms : List Mat4) (ids : List Nat) (ct : Nat → Fin 3 → Int) :
    List Mat4 :=
  (ms.zip ids).map fun p => setTransRow p.1 (ct p.2)

/-- Lines 233-234: `if optimize_latent: inputs['frame_latent'] =
input_params['frame_latent'](ids)`.  The embedding lookup allocates a fresh
tensor; the dictionary key is rebound to its address. -/
def stage_latent (fl : Flags) (ip : InputParams) (ids : List Nat)
    (s : PyState) : Option PyState :=
  if fl.optimize_latent then
    let p := s.heap.alloc (.vecs (ids.map ip.frame_latent))
    some { s with heap := p.1,
                  inputs := { s.inputs with frame_latent := some p.2 } }
  else some s

/-- Lines 235-237: `targets['expression'] = inputs['expression']` copies the
*address*, then `inputs['expression']` is rebound to a fresh tensor. -/
def stage_expression (fl : Flags) (ip : InputParams) (ids : List Nat)
    (s : PyState) : Option PyState :=
  if fl.optimize_expression then do
    let ae ← s.inputs.expression
    let p := s.heap.alloc (.vecs (ids.map ip.expression))
    pure { heap := p.1,
           inputs := { s.inputs with expression := some p.2 },
           targets := { s.targets with expression := some ae } }
  else some s

/-- Lines 238-240: same pattern for the pose. -/
def stage_pose (fl : Flags) (ip : InputParams) (ids : List Nat)
    (s : PyState) : Option PyState :=
  if fl.optimize_pose then do
    let ap ← s.inputs.pose
    let p := s.heap.alloc (.vecs (ids.map ip.pose))
    pure { heap := p.1,
           inputs := { s.inputs with pose := some p.2 },
           targets := { s.targets with pose := some ap } }
  else some s

/-- Lines 241-243: `targets['extrinsic'] = inputs['extrinsic']` copies the
*address*, then `inputs['extrinsic'][:, :3, 3] = ...` writes through that
shared address in place - both dictionary entries keep pointing at the
mutated tensor. -/
def stage_camera (fl : Flags) (ip : InputParams) (ids : List Nat)
    (s : PyState) : Option PyState :=
  if fl.optimize_camera then do
    let ax ← s.inputs.extrinsic
    let ms ← s.heap.readMats ax
    pure { heap := s.heap.write ax (.mats (setTrans ms ids ip.cam_trans)),
           inputs := s.inputs,
           targets := { s.targets with extrinsic := some ax } }
  else some s

/-- The body of `replace_optimizable_inputs` after the id computation: the
four `if optimize_*` blocks in source order (lines 233-243). -/
def substituteWithIds (fl : Flags) (ip : InputParams) (ids : List Nat)
    (s : PyState) : Option PyState := do
  let s ← stage_latent fl ip ids s
  let s ← stage_expression fl ip ids s
  let s ← stage_pose fl ip ids s
  stage_camera fl ip ids s

/-- `replace_optimizable_inputs(inputs, targets, fixed_id)` (lines 230-243):
compute the id tensor, then substitute per enabled flag.  Returns `none`
only when a dictionary key or heap cell the source would dereference is
missing or ill-typed. -/
def replace_optimizable_inputs (fl : Flags) (ip : InputParams)
    (fixed_id : Option Nat) (s : PyState) : Option PyState := do
  let aid ← s.inputs.id
  let batch_ids ← s.heap.readIds aid
  substituteWithIds fl ip (computeIds batch_ids fixed_id) s

/- ----------------------------------------------------------------------
Checkpoint resume (`training.py` lines 183-221) and save (lines 342-363).
`torch.load` on an absent or corrupt file raises; we model each checkpoint
file as an `Option` of its observable payload, `none` meaning the load
raises.  `load_state_dict` on the input store / input optimizer can raise on
incompatible shapes; the `compat` flag records whether it succeeds.
---------------------------------------------------------------------- -/

/-- Observable payload of `input.pth` for the resume logic: whether
`input_params.load_state_dict(input_state, strict=False)` succeeds on it. -/
structure InputFile where
  compat : Bool
deriving DecidableEq

/-- Observable payload of `optimizer_input.pth`: whether
`optimizer_input`/`scheduler_input` `.load_state_dict` succeed on it. -/
structure OptimInputFile where
  compat : Bool
deriving DecidableEq

/-- Contents of one checkpoint directory `iter_k`.  `model_file` carries the
`it` and `sample_count` metadata stored next to the model weights (line
345-351); `optim_file` is `true` when `optimizer.pth` loads and both strict
`load_state_dict` calls succeed (lines 196-198). -/
structure Ckpt where
  model_file : Option (Nat × Nat)
  optim_file : Bool
  input_file : Option InputFile
  optim_input_file : Option OptimInputFile
deriving DecidableEq

/-- A checkpoint directory none of whose files load (an absent directory
behaves identically: every `torch.load` under it raises). -/
def emptyCkpt : Ckpt :=
  { model_file := none, optim_file := false,
    input_file := none, optim_input_file := none }

/-- The uncaught exceptions the resume block can raise. -/
inductive LoadErr where
  | model_load_failed
  | optim_load_failed
  | input_load_failed
deriving DecidableEq

/-- The warnings `accel.print` emits on the degraded paths (lines 215, 217). -/
inductive ResumeWarning where
  | mismatched_input_params
  | mismatched_optimizer_input
deriving DecidableEq

/-- The training state the resume block establishes: the restored counters,
whether the input store ended up with checkpoint values (versus its fresh
initialization), whether the input optimizer/scheduler were restored, and
the warnings printed. -/
structure ResumeState where
  it : Nat
  sample_count : Nat
  inputs_restored : Bool
  input_optim_restored : Bool
  warnings : List ResumeWarning
deriving DecidableEq

/-- Lines 188-219: load `model.pth` (uncaught on failure), `optimizer.pth`
plus its two strict `load_state_dict` calls (uncaught on failure), then - if
input optimization is on - `torch.load(input.pth)` *outside* the try block
(uncaught on failure), the outer `try` around
`input_params.load_state_dict` and `torch.load(optimizer_input.pth)`, and
the inner `try` around the two input-optimizer `load_state_dict` calls. -/
def load_checkpoint (optimize_inputs : Bool) (c : Ckpt) :
    Except LoadErr ResumeState :=
  match c.model_file with
  | none => .error .model_load_failed
  | some ms =>
    if c.optim_file then
      if optimize_inputs then
        match c.input_file with
        | none => .error .input_load_failed
        | some isd =>
          if isd.compat then
            match c.optim_input_file with
            | none =>
              .ok { it := ms.1, sample_count := ms.2,
                    inputs_restored := true, input_optim_restored := false,
                    warnings := [.mismatched_input_params] }
            | some oisd =>
              if oisd.compat then
                .ok { it := ms.1, sample_count := ms.2,
                      inputs_restored := true, input_optim_restored := true,
                      warnings := [] }
              else
                .ok { it := ms.1, sample_count := ms.2,
                      inputs_restored := true, input_optim_restored := false,
                      warnings := [.mismatched_optimizer_input] }
          else
            .ok { it := ms.1, sample_count := ms.2,
                  inputs_restored := false, input_optim_restored := false,
                  warnings := [.mismatched_input_params] }
      else
        .ok { it := ms.1, sample_count := ms.2,
              inputs_restored := false, input_optim_restored := false,
              warnings := [] }
    else .error .optim_load_failed

/-- The checkpoints root: directories `iter_k`, keyed by iteration. -/
abbrev CkptStore := List (Nat × Ckpt)

/-- Content of directory `iter_k`; a key not in the store is a missing
directory, under which every `torch.load` raises. -/
def store_dir (store : CkptStore) (k : Nat) : Ckpt :=
  (store.lookup k).getD emptyCkpt

/-- Modelled from the spec: `find_latest_model_path` lives in
`utils/misc_util.py`, which is not among the provided sources.  The spec
says "latest" scans the checkpoints root for the highest iteration-numbered
subdirectory, and that `resolve_checkpoint` may return none (fresh start)
when nothing is found. -/
def find_latest_model_path : CkptStore → Option Nat
  | [] => none
  | p :: rest =>
    match find_latest_model_path rest with
    | none => some p.1
    | some m => some (max p.1 m)

/-- Lines 183-187: `last_ckpt_dir = iter_{load_iteration}` when an explicit
iteration is given, else `load_from or find_latest_model_path(...)`
(`load_from` here already resolved to a directory key when present). -/
def resolve_ckpt_dir (load_iteration : Option Nat) (load_from : Option Nat)
    (store : CkptStore) : Option Nat :=
  match load_iteration with
  | some k => some k
  | none =>
    match load_from with
    | some d => some d
    | none => find_latest_model_path store

/-- The whole resume block (lines 183-221): resolve a checkpoint directory;
when one is resolved, load from it (any uncaught exception aborts the
resume); otherwise start fresh at `it = 0, sample_count = 0`. -/
def training_resume (load_iteration : Option Nat) (load_from : Option Nat)
    (store : CkptStore) (optimize_inputs : Bool) :
    Except LoadErr ResumeState :=
  match resolve_ckpt_dir load_iteration load_from store with
  | some d => load_checkpoint optimize_inputs (store_dir store d)
  | none =>
    .ok { it := 0, sample_count := 0, inputs_restored := false,
          input_optim_restored := false, warnings := [] }

/-- Checkpoint save (lines 342-363): under `iter_{it}` write `model.pth`
holding the current `it` and `sample_count`, `optimizer.pth`, and - when
input optimization is on - `input.pth` and `optimizer_input.pth`.  States
saved from the running process reload into the same process's modules, so
the saved files load and are compatible. -/
def save_checkpoint (optimize_inputs : Bool) (it sample_count : Nat)
    (store : CkptStore) : CkptStore :=
  (it,
    { model_file := some (it, sample_count),
      optim_file := true,
      input_file := if optimize_inputs then some ⟨true⟩ else none,
      optim_input_file := if optimize_inputs then some ⟨true⟩ else none })
    :: store

/- ----------------------------------------------------------------------
Observations on a substituted state, and concrete test fixtures.
---------------------------------------------------------------------- -/

/-- The tensor value `targets['extrinsic']` denotes. -/
def targets_extrinsic_val (s : PyState) : Option (List Mat4) := do
  let a ← s.targets.extrinsic
  s.heap.readMats a

/-- The tensor value `inputs['extrinsic']` denotes. -/
def inputs_extrinsic_val (s : PyState) : Option (List Mat4) := do
  let a ← s.inputs.extrinsic
  s.heap.readMats a

/-- Fixture input store: distinct, recognizable values per table. -/
def ipTest : InputParams :=
  { frame_latent := fun n => [Int.ofNat n],
    expression := fun n => [10 + Int.ofNat n],
    pose := fun n => [20 + Int.ofNat n],
    cam_trans := fun n i => 100 + Int.ofNat n + Int.ofNat i.val }

/-- Fixture dataset extrinsic: entry `(i, j)` is `4 * i + j`, so the
dataset camera translation column is `(3, 7, 11)`. -/
def baseMat : Mat4 :=
  fun i j => Int.ofNat i.val * 4 + Int.ofNat j.val

/-- Fixture heap: cell 0 the batch ids `[1, 2]`, cell 1 the dataset
expressions, cell 2 the dataset poses, cell 3 the dataset extrinsics. -/
def heap0 : Heap :=
  ⟨[.ids [1, 2], .vecs [[11], [12]], .vecs [[21], [22]],
    .mats [baseMat, baseMat]]⟩

/-- Fixture `inputs` dictionary for a 2-row batch. -/
def inputs0 : Dict :=
  { id := some 0, frame_latent := none, expression := some 1,
    pose := some 2, extrinsic := some 3 }

/-- Fixture `targets` dictionary before substitution. -/
def targets0 : Dict :=
  { id := none, frame_latent := none, expression := none, pose := none,
    extrinsic := none }

/-- Fixture state as handed to `replace_optimizable_inputs`. -/
def s0 : PyState :=
  { heap := heap0, inputs := inputs0, targets := targets0 }

/-- All four optimization flags on. -/
def flagsAll : Flags := ⟨true, true, true, true⟩

/-- Only camera optimization on. -/
def camFlags : Flags := ⟨false, false, false, true⟩

/-- `baseMat` for batch row 0 after the in-place translation write with
learned translation `cam_trans 1 = (101, 102, 103)`. -/
def subMat1 : Mat4 :=
  fun i j =>
    if (i : Nat) < 3 ∧ (j : Nat) = 3 then 101 + Int.ofNat i.val
    else baseMat i j

/-- `baseMat` for batch row 1 after the in-place translation write with
learned translation `cam_trans 2 = (102, 103, 104)`. -/
def subMat2 : Mat4 :=
  fun i j =>
    if (i : Nat) < 3 ∧ (j : Nat) = 3 then 102 + Int.ofNat i.val
    else baseMat i j

/-- The camera-only substituted fixture state: cell 3 mutated in place,
`targets['extrinsic']` aliasing it. -/
def s0cam' : PyState :=
  { heap := ⟨[.ids [1, 2], .vecs [[11], [12]], .vecs [[21], [22]],
              .mats [subMat1, subMat2]]⟩,
    inputs := inputs0,
    targets := { targets0 with extrinsic := some 3 } }

/- ----------------------------------------------------------------------
Theorems: metric windows, aggregation, loop counters, periodic gates.
---------------------------------------------------------------------- -/

/-- One window push preserves the last-`C`-values characterization. -/
lemma push_window_drop (C : Nat) (ys : List ℚ) (v : ℚ) :
    push_window C (ys.drop (ys.length - C)) v =
      (ys ++ [v]).drop (ys.length + 1 - C) := by
  simp only [push_window]
  by_cases hC : C ≤ ys.length
  · have hlen : (ys.drop (ys.length - C)).length = C := by
      rw [List.length_drop]; omega
    by_cases h0 : C = 0
    · subst h0
      simp at hlen
      simp [hlen, List.drop_eq_nil_iff]
    · rw [List.length_append, hlen]
      rw [if_pos (by simp)]
      have h1 : (1 : Nat) ≤ (ys.drop (ys.length - C)).length := by omega
      rw [List.length_singleton]
      have hdrop1 : C + 1 - C = 1 := by omega
      rw [hdrop1, List.drop_append_of_le_length h1, List.drop_drop,
        List.drop_append_of_le_length (show ys.length + 1 - C ≤ ys.length by omega)]
      have harith : ys.length - C + 1 = ys.length + 1 - C := by omega
      rw [harith]
  · have h1 : ys.length - C = 0 := by omega
    have h2 : ys.length + 1 - C = 0 := by omega
    rw [h1, h2, List.drop_zero, List.drop_zero]
    rw [if_neg (by simp; omega)]

/-- The window built by pushing `vs` one at a time holds exactly the last
`C` values of `vs`. -/
lemma push_all_eq_drop (C : Nat) (vs : List ℚ) :
    push_all C vs = vs.drop (vs.length - C) := by
  induction vs using List.reverseRecOn with
  | nil => simp [push_all]
  | append_singleton ys v ih =>
    have h1 : push_all C (ys ++ [v]) = push_window C (push_all C ys) v := by
      simp [push_all, List.foldl_append]
    rw [h1, ih, push_window_drop, List.length_append, List.length_singleton]

/-- C5: after pushing `v_1..v_m` (m > capacity C) into a loss term's window,
the window holds exactly the last `C` values, its size is exactly `C` (and
never exceeded `C` at any intermediate stage), and the reported smoothed
value is the arithmetic mean of `v_{m-C+1}..v_m`. -/
theorem avg_window_mean (C : Nat) (vs : List ℚ) (hC : 0 < C)
    (hm : C < vs.length) :
    push_all C vs = vs.drop (vs.length - C) ∧
    (push_all C vs).length = C ∧
    window_mean (push_all C vs) = (vs.drop (vs.length - C)).sum / (C : ℚ) ∧
    ∀ n : Nat, (push_all C (vs.take n)).length ≤ C := by
  have hlen : (push_all C vs).length = C := by
    rw [push_all_eq_drop, List.length_drop]; omega
  refine ⟨push_all_eq_drop C vs, hlen, ?_, ?_⟩
  · rw [window_mean, hlen, push_all_eq_drop]
  · intro n
    rw [push_all_eq_drop, List.length_drop, List.length_take]
    omega

/-- C5 witness: capacity 2, values `[1, 2, 3]` - the window is `[2, 3]` and
the smoothed value is `5/2`. -/
theorem avg_window_mean_witness :
    push_all 2 [(1 : ℚ), 2, 3] = [(2 : ℚ), 3] ∧
    window_mean (push_all 2 [(1 : ℚ), 2, 3]) = 5 / 2 := by
  have h := avg_window_mean 2 [(1 : ℚ), 2, 3] (by norm_num) (by norm_num)
  refine ⟨by rw [h.1]; rfl, ?_⟩
  rw [h.2.2.1]
  norm_num

/-- C6: the evaluation aggregation divides the cross-worker sum of a loss
term by the cross-worker sum of batch counts, and this equals the mean a
single process would compute over the concatenation of all workers'
validation batches. -/
theorem val_aggregate_exact_mean (workers : List (List ℚ)) :
    aggregate_val_loss workers =
      ((workers.map worker_term_sum).sum) /
        (((workers.map worker_num_batches).sum : Nat) : ℚ) ∧
    aggregate_val_loss workers = single_process_mean workers.flatten := by
  refine ⟨rfl, ?_⟩
  rw [aggregate_val_loss, single_process_mean, List.length_flatten,
    List.sum_flatten]
  have hsum : workers.map worker_term_sum = workers.map List.sum := by
    apply List.map_congr_left
    intro b _
    rw [worker_term_sum, ← List.sum_eq_foldl]
  have hlen : workers.map worker_num_batches = workers.map List.length := rfl
  rw [hsum, hlen]

/-- C4: starting the loop at counter `it0 ≤ I` with sample counter `sc0`,
the loop runs exactly `I + 1 - it0` whole iterations, increments `it` once
per consumed batch and `sample_count` by `batch_size * world_size` per
batch, and exits with `it = I + 1` - the first value exceeding the budget. -/
theorem training_loop_terminates (I bs ws it0 sc0 : Nat) (h : it0 ≤ I) :
    run_training_loop I bs ws it0 sc0 =
      (I + 1, sc0 + (I + 1 - it0) * (bs * ws), I + 1 - it0) := by
  have key : ∀ n it0 sc0, it0 ≤ I → I + 1 - it0 = n + 1 →
      run_training_loop I bs ws it0 sc0 =
        (I + 1, sc0 + (n + 1) * (bs * ws), n + 1) := by
    intro n
    induction n with
    | zero =>
      intro it1 sc1 h1 h2
      rw [run_training_loop]
      have hgt : it1 + 1 > I := by omega
      simp only [hgt, if_true]
      have : it1 + 1 = I + 1 := by omega
      rw [this]
      ring_nf
    | succ n ih =>
      intro it1 sc1 h1 h2
      rw [run_training_loop]
      have hle : ¬ (it1 + 1 > I) := by omega
      simp only [hle, if_false]
      rw [ih (it1 + 1) (sc1 + bs * ws) (by omega) (by omega)]
      simp only [Prod.mk.injEq, eq_self_iff_true, true_and, and_true]
      ring
  have h2 : I + 1 - it0 = (I - it0) + 1 := by omega
  rw [key (I - it0) it0 sc0 h h2, h2]

/-- C4 witness: budget 10, starting at 0 with batch size 3 and world size 2:
the loop ends at `it = 11` having consumed 11 batches and 66 samples. -/
theorem training_loop_terminates_witness :
    run_training_loop 10 3 2 0 0 = (11, 66, 11) := by
  have h := training_loop_terminates 10 3 2 0 0 (by norm_num)
  norm_num at h
  exact h

/-- C9: on a fresh start (`it = 0`), every modulo-gated periodic action
fires on the very first iteration: logging, console print, checkpoint save
(writing directory `iter_0`) on the coordinating worker, and evaluation when
the validation set is non-empty. -/
theorem first_iteration_fires (log_it show_it save_it eval_it val_size : Nat)
    (hl : 0 < log_it) (hs : 0 < show_it) (hv : 0 < save_it)
    (he : 0 < eval_it) (hval : 0 < val_size) :
    fires_log 0 log_it true = true ∧
    fires_show 0 show_it true = true ∧
    fires_save 0 save_it true = true ∧
    fires_eval 0 eval_it val_size = true ∧
    ckpt_dir_name 0 = "iter_0" := by
  refine ⟨?_, ?_, ?_, ?_, by decide⟩ <;>
    simp [fires_log, fires_show, fires_save, fires_eval, Nat.zero_mod, hval]

/-- C9 witness: all intervals 1, one validation frame. -/
theorem first_iteration_fires_witness :
    fires_log 0 1 true = true ∧ fires_show 0 1 true = true ∧
    fires_save 0 1 true = true ∧ fires_eval 0 1 1 = true ∧
    ckpt_dir_name 0 = "iter_0" :=
  first_iteration_fires 1 1 1 1 1 (by norm_num) (by norm_num) (by norm_num)
    (by norm_num) (by norm_num)

/- ----------------------------------------------------------------------
Theorems: checkpoint resume and save.
---------------------------------------------------------------------- -/

/-- The iteration returned by the latest-checkpoint scan is one of the
stored directory keys. -/
lemma find_latest_mem (store : CkptStore) :
    ∀ m : Nat, find_latest_model_path store = some m →
      m ∈ store.map Prod.fst := by
  induction store with
  | nil => intro m h; simp [find_latest_model_path] at h
  | cons p rest ih =>
    intro m h
    rw [find_latest_model_path] at h
    cases hrest : find_latest_model_path rest with
    | none => rw [hrest] at h; simp at h; simp [h]
    | some m' =>
      rw [hrest] at h
      simp only [Option.some.injEq] at h
      subst h
      rcases le_total p.1 m' with hle | hle
      · rw [max_eq_right hle]
        simp [ih m' hrest]
      · rw [max_eq_left hle]
        simp

/-- Prepending a directory whose iteration dominates every stored key makes
it the latest checkpoint. -/
lemma find_latest_cons_max (k : Nat) (c : Ckpt) (store : CkptStore)
    (hmax : ∀ k' ∈ store.map Prod.fst, k' ≤ k) :
    find_latest_model_path ((k, c) :: store) = some k := by
  rw [find_latest_model_path]
  cases hrest : find_latest_model_path store with
  | none => rfl
  | some m =>
    have hm := hmax m (find_latest_mem store m hrest)
    simp [max_eq_left hm]

/-- C1 counterexample: a resolved checkpoint whose `model.pth` and
`optimizer.pth` load fine but whose `input.pth` is absent: the
`torch.load` at line 201 sits *outside* the `try` block, so the resume
raises instead of degrading. -/
theorem resume_degraded_counterexample :
    training_resume (some 5) none
      [(5, { model_file := some (5, 100), optim_file := true,
             input_file := none, optim_input_file := none })] true =
      .error .input_load_failed := by rfl

/-- C1 amended: with input optimization enabled and a valid model+optimizer
checkpoint, the degraded-resume path fires when `input.pth` *loads* but its
state dict is incompatible (`load_state_dict` raises inside the `try`): the
resume then succeeds, the input store keeps its freshly-initialized values,
and the warning is printed.  An absent or corrupt `input.pth` instead
aborts the resume. -/
theorem resume_degraded_amended (k it0 sc0 : Nat) (store : CkptStore)
    (oisd : Option OptimInputFile)
    (hdir : store_dir store k =
      { model_file := some (it0, sc0), optim_file := true,
        input_file := some ⟨false⟩, optim_input_file := oisd }) :
    training_resume (some k) none store true =
      .ok { it := it0, sample_count := sc0, inputs_restored := false,
            input_optim_restored := false,
            warnings := [.mismatched_input_params] } := by
  simp [training_resume, resolve_ckpt_dir, hdir, load_checkpoint]

/-- C1 amended witness: a concrete checkpoint store with an incompatible
`input.pth` resumes successfully in the degraded mode. -/
theorem resume_degraded_amended_witness :
    training_resume (some 5) none
      [(5, { model_file := some (5, 100), optim_file := true,
             input_file := some ⟨false⟩, optim_input_file := some ⟨true⟩ })]
      true =
      .ok { it := 5, sample_count := 100, inputs_restored := false,
            input_optim_restored := false,
            warnings := [.mismatched_input_params] } :=
  resume_degraded_amended 5 5 100 _ (some ⟨true⟩) (by rfl)

/-- C7: when a checkpoint directory is resolved but its `optimizer.pth`
does not load (or its strict `load_state_dict` fails), the resume aborts
with an error and never reaches any success state - in particular it does
not silently fall back to a fresh start at iteration 0. -/
theorem fatal_resume_optim (li lf : Option Nat) (store : CkptStore)
    (oi : Bool) (d : Nat)
    (hres : resolve_ckpt_dir li lf store = some d)
    (hopt : (store_dir store d).optim_file = false) :
    (∃ e, training_resume li lf store oi = .error e) ∧
    ∀ st, training_resume li lf store oi ≠ .ok st := by
  have hmain : training_resume li lf store oi =
      load_checkpoint oi (store_dir store d) := by
    simp [training_resume, hres]
  have hload : ∃ e, load_checkpoint oi (store_dir store d) = .error e := by
    cases hm : (store_dir store d).model_file with
    | none => exact ⟨.model_load_failed, by simp [load_checkpoint, hm]⟩
    | some ms => exact ⟨.optim_load_failed, by simp [load_checkpoint, hm, hopt]⟩
  obtain ⟨e, he⟩ := hload
  refine ⟨⟨e, hmain ▸ he⟩, ?_⟩
  intro st hcon
  rw [hmain, he] at hcon
  exact Except.noConfusion hcon

/-- C7 witness: a concrete store whose optimizer file is corrupt does not
resume into the fresh-start state. -/
theorem fatal_resume_optim_witness :
    training_resume (some 3) none
      [(3, { model_file := some (3, 30), optim_file := false,
             input_file := none, optim_input_file := none })] false ≠
      .ok { it := 0, sample_count := 0, inputs_restored := false,
            input_optim_restored := false, warnings := [] } := by
  have h := fatal_resume_optim (some 3) none
    [(3, { model_file := some (3, 30), optim_file := false,
           input_file := none, optim_input_file := none })] false 3
    (by rfl) (by rfl)
  exact h.2 _

/-- C8: saving a checkpoint at iteration `k` with sample count `s` and then
resuming from it - either by explicit iteration or by the latest scan, when
`k` dominates every previously saved iteration - restores `it = k` and
`sample_count = s` (and, when input optimization is on, the input store and
its optimizer state as well). -/
theorem checkpoint_roundtrip (oi : Bool) (k s : Nat) (store : CkptStore)
    (hmax : ∀ k' ∈ store.map Prod.fst, k' ≤ k) :
    training_resume (some k) none (save_checkpoint oi k s store) oi =
      .ok { it := k, sample_count := s, inputs_restored := oi,
            input_optim_restored := oi, warnings := [] } ∧
    training_resume none none (save_checkpoint oi k s store) oi =
      .ok { it := k, sample_count := s, inputs_restored := oi,
            input_optim_restored := oi, warnings := [] } := by
  have hdir : store_dir (save_checkpoint oi k s store) k =
      { model_file := some (k, s), optim_file := true,
        input_file := if oi then some ⟨true⟩ else none,
        optim_input_file := if oi then some ⟨true⟩ else none } := by
    simp [store_dir, save_checkpoint, List.lookup]
  have hload : load_checkpoint oi (store_dir (save_checkpoint oi k s store) k) =
      .ok { it := k, sample_count := s, inputs_restored := oi,
            input_optim_restored := oi, warnings := [] } := by
    rw [hdir]
    cases oi <;> simp [load_checkpoint]
  constructor
  · simpa [training_resume, resolve_ckpt_dir] using hload
  · have hlatest : resolve_ckpt_dir none none (save_checkpoint oi k s store) =
        some k := by
      simpa [resolve_ckpt_dir, save_checkpoint] using
        find_latest_cons_max k _ store hmax
    simpa [training_resume, hlatest] using hload

/-- C8 witness: saving at iteration 7 with sample count 70 over a store
holding an older `iter_3` directory and resuming - both explicitly and via
the latest scan - restores the saved counters. -/
theorem checkpoint_roundtrip_witness :
    training_resume (some 7) none (save_checkpoint true 7 70 [(3, emptyCkpt)])
      true =
      .ok { it := 7, sample_count := 70, inputs_restored := true,
            input_optim_restored := true, warnings := [] } ∧
    training_resume none none (save_checkpoint true 7 70 [(3, emptyCkpt)])
      true =
      .ok { it := 7, sample_count := 70, inputs_restored := true,
            input_optim_restored := true, warnings := [] } :=
  checkpoint_roundtrip true 7 70 [(3, emptyCkpt)] (by decide)

/- ----------------------------------------------------------------------
Theorems: optimizable-input substitution.
---------------------------------------------------------------------- -/

/-- Allocation preserves every existing matrix read. -/
lemma readMats_alloc (h : Heap) (v : Val) (a : Nat) (ms : List Mat4)
    (hread : h.readMats a = some ms) :
    (h.alloc v).1.readMats a = some ms := by
  have ha : a < h.cells.length := by
    unfold Heap.readMats Heap.read at hread
    cases hg : h.cells[a]? with
    | none => rw [hg] at hread; simp at hread
    | some w => exact (List.getElem?_eq_some.mp hg).1
  have hsame : (h.alloc v).1.read a = h.read a := by
    unfold Heap.read Heap.alloc
    exact List.getElem?_append_left ha
  unfold Heap.readMats at *
  rw [hsame]
  exact hread

/-- Writing a matrix batch back to an existing cell makes the written batch
readable at that address. -/
lemma readMats_write (h : Heap) (a : Nat) (ms ms' : List Mat4)
    (hread : h.readMats a = some ms) :
    (h.write a (.mats ms')).readMats a = some ms' := by
  have ha : a < h.cells.length := by
    unfold Heap.readMats Heap.read at hread
    cases hg : h.cells[a]? with
    | none => rw [hg] at hread; simp at hread
    | some w => exact (List.getElem?_eq_some.mp hg).1
  unfold Heap.readMats Heap.read Heap.write
  have hset : (h.cells.set a (.mats ms'))[a]? = some (.mats ms') := by
    rw [List.getElem?_set_self]
    simp [List.getElem?_eq_getElem, ha]
  rw [hset]

/-- The latent stage never touches `inputs['extrinsic']` and only extends
the heap. -/
lemma stage_latent_inv (fl : Flags) (ip : InputParams) (ids : List Nat)
    (s s' : PyState) (h : stage_latent fl ip ids s = some s') :
    s'.inputs.extrinsic = s.inputs.extrinsic ∧
    ∀ a ms, s.heap.readMats a = some ms → s'.heap.readMats a = some ms := by
  unfold stage_latent at h
  by_cases hfl : fl.optimize_latent = true
  · rw [if_pos hfl] at h
    obtain rfl := Option.some.inj h
    exact ⟨rfl, fun a ms hm => readMats_alloc _ _ _ _ hm⟩
  · rw [if_neg hfl] at h
    obtain rfl := Option.some.inj h
    exact ⟨rfl, fun a ms hm => hm⟩

/-- The expression stage never touches `inputs['extrinsic']` and only
extends the heap. -/
lemma stage_expression_inv (fl : Flags) (ip : InputParams) (ids : List Nat)
    (s s' : PyState) (h : stage_expression fl ip ids s = some s') :
    s'.inputs.extrinsic = s.inputs.extrinsic ∧
    ∀ a ms, s.heap.readMats a = some ms → s'.heap.readMats a = some ms := by
  unfold stage_expression at h
  by_cases hfl : fl.optimize_expression = true
  · rw [if_pos hfl] at h
    cases hae : s.inputs.expression with
    | none => rw [hae] at h; simp at h
    | some ae =>
      rw [hae] at h
      simp only [Option.bind_eq_bind, Option.some_bind] at h
      obtain rfl := Option.some.inj h
      exact ⟨rfl, fun a ms hm => readMats_alloc _ _ _ _ hm⟩
  · rw [if_neg hfl] at h
    obtain rfl := Option.some.inj h
    exact ⟨rfl, fun a ms hm => hm⟩

/-- The pose stage never touches `inputs['extrinsic']` and only extends the
heap. -/
lemma stage_pose_inv (fl : Flags) (ip : InputParams) (ids : List Nat)
    (s s' : PyState) (h : stage_pose fl ip ids s = some s') :
    s'.inputs.extrinsic = s.inputs.extrinsic ∧
    ∀ a ms, s.heap.readMats a = some ms → s'.heap.readMats a = some ms := by
  unfold stage_pose at h
  by_cases hfl : fl.optimize_pose = true
  · rw [if_pos hfl] at h
    cases hap : s.inputs.pose with
    | none => rw [hap] at h; simp at h
    | some ap =>
      rw [hap] at h
      simp only [Option.bind_eq_bind, Option.some_bind] at h
      obtain rfl := Option.some.inj h
      exact ⟨rfl, fun a ms hm => readMats_alloc _ _ _ _ hm⟩
  · rw [if_neg hfl] at h
    obtain rfl := Option.some.inj h
    exact ⟨rfl, fun a ms hm => hm⟩

/-- With camera optimization enabled, the camera stage keeps
`inputs['extrinsic']` at the same address and overwrites that cell with the
translation-substituted batch. -/
lemma stage_camera_out (fl : Flags) (ip : InputParams) (ids : List Nat)
    (s s' : PyState) (ax : Nat) (ms : List Mat4)
    (hcam : fl.optimize_camera = true)
    (hax : s.inputs.extrinsic = some ax)
    (hms : s.heap.readMats ax = some ms)
    (h : stage_camera fl ip ids s = some s') :
    s'.inputs.extrinsic = some ax ∧
    s'.heap.readMats ax = some (setTrans ms ids ip.cam_trans) := by
  unfold stage_camera at h
  rw [if_pos hcam, hax] at h
  simp only [Option.bind_eq_bind, Option.some_bind] at h
  rw [hms] at h
  simp only [Option.bind_eq_bind, Option.some_bind] at h
  obtain rfl := Option.some.inj h
  exact ⟨hax, readMats_write _ _ _ _ hms⟩

/-- Entries outside the translation column survive the batched in-place
slice write untouched. -/
lemma setTrans_entry (ms : List Mat4) (ids : List Nat)
    (ct : Nat → Fin 3 → Int) (b : Nat)
    (hb : b < (setTrans ms ids ct).length) (i j : Fin 4)
    (hij : ¬((i : Nat) < 3 ∧ (j : Nat) = 3)) :
    ((setTrans ms ids ct)[b]?.map fun m => m i j) =
      (ms[b]?.map fun m => m i j) := by
  induction ms generalizing ids b with
  | nil => simp [setTrans] at hb
  | cons m rest ih =>
    cases ids with
    | nil => simp [setTrans] at hb
    | cons id0 ids' =>
      have hcons : setTrans (m :: rest) (id0 :: ids') ct =
          setTransRow m (ct id0) :: setTrans rest ids' ct := by
        simp [setTrans, List.zip_cons_cons]
      cases b with
      | zero =>
        rw [hcons]
        simp [setTransRow, hij]
      | succ b' =>
        rw [hcons] at hb ⊢
        simp only [List.getElem?_cons_succ]
        exact ih ids' b' (by simpa using hb)

/-- C2: evaluated on the fixture batch with camera optimization enabled,
`replace_optimizable_inputs` leaves `targets['extrinsic']` denoting the
matrices whose translation column holds the *learned* camera translation -
not the dataset-supplied extrinsic - because the assignment on line 242
aliases the tensor that line 243 then mutates in place; `targets` and
`inputs` end up denoting the very same value. -/
theorem camera_targets_alias_bug :
    (replace_optimizable_inputs camFlags ipTest none s0).bind
        targets_extrinsic_val = some [subMat1, subMat2] ∧
    (replace_optimizable_inputs camFlags ipTest none s0).bind
        targets_extrinsic_val ≠ some [baseMat, baseMat] ∧
    (replace_optimizable_inputs camFlags ipTest none s0).bind
        targets_extrinsic_val =
      (replace_optimizable_inputs camFlags ipTest none s0).bind
        inputs_extrinsic_val := by
  refine ⟨by decide, by decide, by decide⟩

/-- C3 counterexample: with `fixed_id = 0` (a valid frame id) the source's
truthiness test `if fixed_id` is false, so the batch's own ids `[1, 2]` are
used for the store lookup - not the constant id `0`. -/
theorem fixed_id_zero_counterexample :
    replace_optimizable_inputs flagsAll ipTest (some 0) s0 =
      substituteWithIds flagsAll ipTest [1, 2] s0 ∧
    replace_optimizable_inputs flagsAll ipTest (some 0) s0 ≠
      substituteWithIds flagsAll ipTest [0, 0] s0 := by
  refine ⟨rfl, by decide⟩

/-- C3 amended: for every *nonzero* fixed id `f`,
`replace_optimizable_inputs` indexes the input store with the constant id
`f` for every row of the batch, regardless of the batch's own ids; for
`f = 0` (and `None`) the batch's own ids are used instead. -/
theorem fixed_id_nonzero_constant (fl : Flags) (ip : InputParams) (f : Nat)
    (s : PyState) (aid : Nat) (bids : List Nat)
    (hf : f ≠ 0) (ha : s.inputs.id = some aid)
    (hb : s.heap.readIds aid = some bids) :
    replace_optimizable_inputs fl ip (some f) s =
      substituteWithIds fl ip (List.replicate bids.length f) s := by
  unfold replace_optimizable_inputs
  rw [ha]
  simp only [Option.bind_eq_bind, Option.some_bind]
  rw [hb]
  simp only [Option.bind_eq_bind, Option.some_bind]
  have hc : computeIds bids (some f) = List.replicate bids.length f := by
    unfold computeIds
    simp [hf]
  rw [hc]

/-- C3 amended witness: fixed id 1 on the fixture batch substitutes with
constant ids `[1, 1]`. -/
theorem fixed_id_nonzero_constant_witness :
    replace_optimizable_inputs flagsAll ipTest (some 1) s0 =
      substituteWithIds flagsAll ipTest (List.replicate 2 1) s0 :=
  fixed_id_nonzero_constant flagsAll ipTest 1 s0 0 [1, 2] (by decide) rfl rfl

/-- C10: with camera optimization enabled, the substitution keeps
`inputs['extrinsic']` bound to the same tensor and overwrites that tensor
with the translation-substituted batch; every entry outside the translation
column `[:, :3, 3]` is unchanged. -/
theorem camera_substitution_frame (fl : Flags) (ip : InputParams)
    (fid : Option Nat) (s s' : PyState) (aid ax : Nat) (bids : List Nat)
    (ms : List Mat4)
    (hcam : fl.optimize_camera = true)
    (hid : s.inputs.id = some aid)
    (hbids : s.heap.readIds aid = some bids)
    (hax : s.inputs.extrinsic = some ax)
    (hms : s.heap.readMats ax = some ms)
    (hrun : replace_optimizable_inputs fl ip fid s = some s') :
    s'.inputs.extrinsic = some ax ∧
    s'.heap.readMats ax =
      some (setTrans ms (computeIds bids fid) ip.cam_trans) ∧
    ∀ b : Nat, b < (setTrans ms (computeIds bids fid) ip.cam_trans).length →
      ∀ i j : Fin 4, ¬((i : Nat) < 3 ∧ (j : Nat) = 3) →
      ((setTrans ms (computeIds bids fid) ip.cam_trans)[b]?.map
          fun m => m i j) =
        (ms[b]?.map fun m => m i j) := by
  unfold replace_optimizable_inputs at hrun
  rw [hid] at hrun
  simp only [Option.bind_eq_bind, Option.some_bind] at hrun
  rw [hbids] at hrun
  simp only [Option.bind_eq_bind, Option.some_bind] at hrun
  unfold substituteWithIds at hrun
  cases h1 : stage_latent fl ip (computeIds bids fid) s with
  | none => rw [h1] at hrun; simp at hrun
  | some s1 =>
    rw [h1] at hrun
    simp only [Option.bind_eq_bind, Option.some_bind] at hrun
    cases h2 : stage_expression fl ip (computeIds bids fid) s1 with
    | none => rw [h2] at hrun; simp at hrun
    | some s2 =>
      rw [h2] at hrun
      simp only [Option.bind_eq_bind, Option.some_bind] at hrun
      cases h3 : stage_pose fl ip (computeIds bids fid) s2 with
      | none => rw [h3] at hrun; simp at hrun
      | some s3 =>
        rw [h3] at hrun
        simp only [Option.bind_eq_bind, Option.some_bind] at hrun
        obtain ⟨e1, p1⟩ := stage_latent_inv _ _ _ _ _ h1
        obtain ⟨e2, p2⟩ := stage_expression_inv _ _ _ _ _ h2
        obtain ⟨e3, p3⟩ := stage_pose_inv _ _ _ _ _ h3
        have hax3 : s3.inputs.extrinsic = some ax := by
          rw [e3, e2, e1, hax]
        have hms3 : s3.heap.readMats ax = some ms :=
          p3 _ _ (p2 _ _ (p1 _ _ hms))
        obtain ⟨o1, o2⟩ := stage_camera_out _ _ _ _ _ _ _ hcam hax3 hms3 hrun
        exact ⟨o1, o2, fun b hb i j hij =>
          setTrans_entry ms _ ip.cam_trans b hb i j hij⟩

/-- C10 witness: the fixture batch with camera-only flags lands in the
explicitly-computed substituted state. -/
theorem camera_substitution_frame_witness :
    s0cam'.inputs.extrinsic = some 3 ∧
    s0cam'.heap.readMats 3 =
      some (setTrans [baseMat, baseMat] (computeIds [1, 2] none)
        ipTest.cam_trans) := by
  have h := camera_substitution_frame camFlags ipTest none s0 s0cam'
    0 3 [1, 2] [baseMat, baseMat] rfl rfl rfl rfl rfl (by decide)
  exact ⟨h.1, h.2.1⟩

end BakedAvatar
